import Mathlib

/-!
Shallow embedding of the real-time interview session engine: the session
controller's per-session mutable refs and its event handlers (turn completion,
interruption, audio scheduling, session start/reset), the capture pipeline's
downsampling step, and the post-session transcript analyzer with its
self-healing JSON parse.  Times and sample values are modelled as exact
rationals; JS strings are modelled as Lean strings (all inputs used in
concrete evaluations are ASCII, where the two length notions agree).
-/

namespace BotInterview

/-- Roles of the chat transcript entries (the TS union «user | model»). -/
inductive Role where
  | user : Role
  | model : Role
deriving DecidableEq

/-- One entry of the transcripts list (TS interface ChatMessage). -/
structure ChatMessage where
  role : Role
  text : String
deriving DecidableEq

/-- A decode continuation suspended at the awaited audio decode inside the
onmessage handler: it captured the session token of the message, the decoded
buffer duration and an identifier for the buffer-source node it will create. -/
structure PendingAudio where
  tok : String
  dur : ℚ
  srcId : ℕ
deriving DecidableEq

/-- The per-session mutable refs of the controller component:
currentSessionIdRef (empty string is the «no session» sentinel),
nextStartTimeRef, sourcesRef (identifiers of still-active buffer sources),
currentInputRef, currentOutputRef, fullTranscriptRef, the transcripts list,
the token-usage counter, and the queue of decode continuations currently
suspended at their await. -/
structure SessState where
  current : String
  nextStart : ℚ
  sources : List ℕ
  currentInput : String
  currentOutput : String
  fullTranscript : String
  transcripts : List ChatMessage
  tokenUsage : ℤ
  pending : List PendingAudio
deriving DecidableEq

/-- Whitespace set used to model the JS String.prototype.trim ends-trimming
(the inputs exercised here only use the ASCII whitespace characters). -/
def isWsChar (c : Char) : Bool :=
  c = ' ' || c = '\t' || c = '\n' || c = '\r' || c = '\x0b' || c = '\x0c'

/-- Model of JS String.prototype.trim: drop whitespace from both ends. -/
def jsTrim (s : String) : String :=
  String.mk (((s.data.dropWhile isWsChar).reverse.dropWhile isWsChar).reverse)

/-- Token estimate of a committed turn:
Math.ceil((input.length + output.length) / 3.5). -/
def estTokens (n : ℕ) : ℤ := Int.ceil ((n : ℚ) / 3.5)

/-- The marker the interruption handler appends to the committed model text. -/
def interruptedMarker : String := " (interrupted)"

/-- The turnComplete branch of the onmessage handler: when either accumulator
is non-empty after trimming, append the user/model pair to the transcripts
list, add the token estimate, and append the formatted line to the full
transcript; in every case clear both accumulators afterwards. -/
def onTurnComplete (s : SessState) : SessState :=
  let input := s.currentInput
  let output := s.currentOutput
  let s1 :=
    if jsTrim input ≠ "" ∨ jsTrim output ≠ "" then
      { s with
        transcripts := s.transcripts ++ [⟨Role.user, input⟩, ⟨Role.model, output⟩],
        tokenUsage := s.tokenUsage + estTokens (input.length + output.length),
        fullTranscript := s.fullTranscript ++ "Candidate: " ++ input ++
          "\nInterviewer: " ++ output ++ "\n" }
    else s
  { s1 with currentInput := "", currentOutput := "" }

/-- The interrupted branch of the onmessage handler: stop and clear every
active source, reset the timeline cursor to the output clock time, and, when
either accumulator is non-empty after trimming, commit the pending turn with
the interruption marker appended to the model text and clear the accumulators
(the clearing sits inside the conditional in the source, and no token estimate
is added on this path). -/
def onInterrupted (s : SessState) (clock : ℚ) : SessState :=
  let s0 := { s with sources := ([] : List ℕ), nextStart := clock }
  let input := s.currentInput
  let output := s.currentOutput
  if jsTrim input ≠ "" ∨ jsTrim output ≠ "" then
    { s0 with
      transcripts := s0.transcripts ++
        [⟨Role.user, input⟩, ⟨Role.model, output ++ interruptedMarker⟩],
      fullTranscript := s0.fullTranscript ++ "Candidate: " ++ input ++
        "\nInterviewer: " ++ output ++ interruptedMarker ++ "\n",
      currentInput := "", currentOutput := "" }
  else s0

/-- The session start path: startInterview invalidates the old session, stops
all media (stopping and clearing the active sources), then installs the fresh
token and resets every per-session cursor and accumulator.  Decode
continuations already suspended at their await cannot be cancelled, so the
pending queue survives a restart.  (The keep-alive silence sources the code
adds right after are not scheduled through the playback path and are omitted.) -/
def onStartSession (s : SessState) (newTok : String) : SessState :=
  { s with
    current := newTok,
    nextStart := 0,
    sources := ([] : List ℕ),
    currentInput := "",
    currentOutput := "",
    fullTranscript := "",
    transcripts := [],
    tokenUsage := 0,
    pending := s.pending }

/-- Arrival of an inbound audio message tagged with token tok: the handler
checks the token once at entry (line «if (currentSessionIdRef.current !==
newSessionId) return») and then suspends at the audio decode await, leaving a
pending continuation. -/
def onAudioArrive (s : SessState) (tok : String) (dur : ℚ) (srcId : ℕ) : SessState :=
  if s.current ≠ tok then s
  else { s with pending := s.pending ++ [⟨tok, dur, srcId⟩] }

/-- Completion of the oldest suspended decode: the continuation resumes with
no further token comparison (the source performs none between the await and
the mutations) and runs the scheduling block: cursor := max(cursor, clock);
start the source at the cursor; cursor += duration; add the source to the
active set. -/
def onAudioResume (s : SessState) (clock : ℚ) : SessState :=
  match s.pending with
  | [] => s
  | p :: rest =>
    let start := max s.nextStart clock
    { s with
      pending := rest,
      nextStart := start + p.dur,
      sources := s.sources ++ [p.srcId] }

/-- The state of the controller before any session: sentinel token, zero
cursor, empty accumulators and queues. -/
def initialState : SessState :=
  { current := "", nextStart := 0, sources := ([] : List ℕ), currentInput := "",
    currentOutput := "", fullTranscript := "", transcripts := [],
    tokenUsage := 0, pending := ([] : List PendingAudio) }

/-! ### Playback scheduling as a pure fold (decode completing immediately) -/

/-- One scheduling step, exactly the block after a successful decode:
the buffer starts at max(nextStart, currentClockTime) and the cursor advances
by the buffer duration.  Returns (start time, new cursor). -/
def scheduleBuffer (nextStart clock dur : ℚ) : ℚ × ℚ :=
  let start := max nextStart clock
  (start, start + dur)

/-- Start times produced by scheduling a sequence of buffers; each list entry
is (arrival clock time, duration). -/
def scheduleAll (nextStart : ℚ) : List (ℚ × ℚ) → List ℚ
  | [] => []
  | (clock, dur) :: rest =>
    let p := scheduleBuffer nextStart clock dur
    p.1 :: scheduleAll p.2 rest

/-- The cursor value after scheduling a whole sequence of buffers. -/
def finalCursor (nextStart : ℚ) : List (ℚ × ℚ) → ℚ
  | [] => nextStart
  | (clock, dur) :: rest => finalCursor (scheduleBuffer nextStart clock dur).2 rest

/-! ### Capture pipeline downsampling -/

/-- The fixed outbound wire sample rate. -/
def wireRate : ℕ := 16000

/-- The downsampling block of the onaudioprocess callback: when the device
rate exceeds the wire rate, ratio = sourceRate / 16000 (kept fractional in the
source, computed here in exact rationals), the output has
floor(length / ratio) samples and sample i is input[floor(i * ratio)];
otherwise the samples pass through unchanged. -/
def downsample (sourceRate : ℕ) (input : List ℚ) : List ℚ :=
  if sourceRate > wireRate then
    let ratio : ℚ := (sourceRate : ℚ) / (wireRate : ℚ)
    let newLength : ℕ := (Int.floor ((input.length : ℚ) / ratio)).toNat
    (List.range newLength).map (fun i : ℕ => input.getD (Int.floor ((i : ℚ) * ratio)).toNat 0)
  else input

/-- Modelled from the spec: «decimate by nearest-neighbor selection at the
integer-truncated ratio», i.e. keep every r-th sample where r is the Nat
quotient of the native rate by the wire rate.  This is the claim's wording,
written to be compared with the downsample function above. -/
def specDownsample (sourceRate : ℕ) (input : List ℚ) : List ℚ :=
  if sourceRate > wireRate then
    let r := sourceRate / wireRate
    (List.range ((input.length + r - 1) / r)).map (fun i => input.getD (i * r) 0)
  else input

/-! ### Interruption as the claim words it, and the final transcript -/

/-- Modelled from the claim and spec wording «identical to turn-complete but
the committed model-text is suffixed with an interruption marker, and
interruptAll is invoked synchronously»: stop and clear the active sources,
reset the cursor, then run the turn-complete commit on the accumulator with
the marker appended.  Written to be compared with onInterrupted above. -/
def specInterrupted (s : SessState) (clock : ℚ) : SessState :=
  onTurnComplete { s with
    sources := ([] : List ℕ),
    nextStart := clock,
    currentOutput := s.currentOutput ++ interruptedMarker }

/-- The final transcript assembled by handleEndInterview before analysis:
the committed full transcript, then the in-flight input accumulator as a
«Candidate (Final)» line when non-empty, then the in-flight output
accumulator as an «Interviewer (Final)» line when non-empty. -/
def mkFinalTranscript (full inp out : String) : String :=
  full ++ (if inp ≠ "" then "\nCandidate (Final): " ++ inp else "") ++
    (if out ≠ "" then "\nInterviewer (Final): " ++ out else "")

/-! ### JSON values and a model of the strict JSON.parse

The parser below mirrors the strictness relevant to the analyzer claims:
trailing commas and bare prose are rejected, markdown fences are not JSON.
Unicode escape sequences and unescaped control characters inside string
literals are not modelled (no payload exercised here contains them). -/

/-- JSON values as produced by the platform parser. -/
inductive Json where
  | null : Json
  | bool (b : Bool) : Json
  | num (q : ℚ) : Json
  | str (s : String) : Json
  | arr (items : List Json) : Json
  | obj (members : List (String × Json)) : Json

/-- The opening curly bracket character. -/
def lbrace : Char := Char.ofNat 123

/-- The closing curly bracket character. -/
def rbrace : Char := Char.ofNat 125

/-- JSON insignificant whitespace (also the ASCII core of the regex class
backslash-s used by the trailing-comma normalization). -/
def isJsonWs (c : Char) : Bool :=
  c = ' ' || c = '\t' || c = '\n' || c = '\r'

/-- Read the body of a JSON string literal after its opening quote; returns
the decoded characters and the remainder after the closing quote. -/
def parseStringAux : List Char → Option (List Char × List Char)
  | [] => none
  | c :: rest =>
    if c = '"' then some ([], rest)
    else if c = '\\' then
      match rest with
      | [] => none
      | e :: rest2 =>
        let esc : Option Char :=
          if e = '"' then some '"'
          else if e = '\\' then some '\\'
          else if e = '/' then some '/'
          else if e = 'b' then some (Char.ofNat 8)
          else if e = 'f' then some (Char.ofNat 12)
          else if e = 'n' then some '\n'
          else if e = 'r' then some '\r'
          else if e = 't' then some '\t'
          else none
        match esc with
        | some ch =>
          match parseStringAux rest2 with
          | some p => some (ch :: p.1, p.2)
          | none => none
        | none => none
    else
      match parseStringAux rest with
      | some p => some (c :: p.1, p.2)
      | none => none

/-- Numeric value of a decimal digit character. -/
def digitVal (c : Char) : ℕ := c.toNat - 48

/-- Decimal digits to a natural number. -/
def natOfDigits (ds : List Char) : ℕ := ds.foldl (fun a c => 10 * a + digitVal c) 0

/-- Read a JSON number token (sign, integer part with no leading zero,
optional fraction, optional exponent) and its exact rational value. -/
def parseNumber (cs : List Char) : Option (ℚ × List Char) :=
  let sign : Bool × List Char :=
    match cs with
    | c :: r => if c = '-' then (true, r) else (false, cs)
    | [] => (false, cs)
  let neg := sign.1
  let cs1 := sign.2
  let intDigits := cs1.takeWhile Char.isDigit
  let cs2 := cs1.dropWhile Char.isDigit
  if intDigits = [] then none
  else if intDigits.length > 1 ∧ intDigits.headD '0' = '0' then none
  else
    let frac : List Char × List Char × Bool :=
      match cs2 with
      | c :: r =>
        if c = '.' then
          let fd := r.takeWhile Char.isDigit
          (fd, r.dropWhile Char.isDigit, !fd.isEmpty)
        else ([], cs2, true)
      | [] => ([], cs2, true)
    let fracDigits := frac.1
    let cs3 := frac.2.1
    if frac.2.2 = false then none
    else
      let expPart : ℤ × List Char × Bool :=
        match cs3 with
        | c :: r =>
          if c = 'e' ∨ c = 'E' then
            let es : Bool × List Char :=
              match r with
              | d :: r3 => if d = '-' then (true, r3) else if d = '+' then (false, r3) else (false, r)
              | [] => (false, r)
            let ed := es.2.takeWhile Char.isDigit
            let r4 := es.2.dropWhile Char.isDigit
            if ed = [] then (0, cs3, false)
            else ((if es.1 then -(natOfDigits ed : ℤ) else (natOfDigits ed : ℤ)), r4, true)
          else (0, cs3, true)
        | [] => (0, cs3, true)
      if expPart.2.2 = false then none
      else
        let mantissa : ℤ :=
          (if neg then -1 else 1) * (natOfDigits (intDigits ++ fracDigits) : ℤ)
        let p : ℤ := expPart.1 - fracDigits.length
        let q : ℚ :=
          if 0 ≤ p then ((mantissa * 10 ^ p.toNat : ℤ) : ℚ)
          else (mantissa : ℚ) / ((10 ^ (-p).toNat : ℤ) : ℚ)
        some (q, expPart.2.1)

mutual

/-- Fueled strict JSON value reader: leading whitespace, then an object,
array, string, literal or number. -/
def parseVal (fuel : ℕ) (cs : List Char) : Option (Json × List Char) :=
  match fuel with
  | 0 => none
  | fuel + 1 =>
    let cs := cs.dropWhile isJsonWs
    match cs with
    | [] => none
    | c :: rest =>
      if c = lbrace then
        let rest2 := rest.dropWhile isJsonWs
        match rest2 with
        | d :: rest3 =>
          if d = rbrace then some (Json.obj [], rest3)
          else
            match parseMembers fuel rest2 with
            | some p => some (Json.obj p.1, p.2)
            | none => none
        | [] => none
      else if c = '[' then
        let rest2 := rest.dropWhile isJsonWs
        match rest2 with
        | d :: rest3 =>
          if d = ']' then some (Json.arr [], rest3)
          else
            match parseItems fuel rest2 with
            | some p => some (Json.arr p.1, p.2)
            | none => none
        | [] => none
      else if c = '"' then
        match parseStringAux rest with
        | some p => some (Json.str (String.mk p.1), p.2)
        | none => none
      else if c = 't' then
        if rest.take 3 = ['r', 'u', 'e'] then some (Json.bool true, rest.drop 3) else none
      else if c = 'f' then
        if rest.take 4 = ['a', 'l', 's', 'e'] then some (Json.bool false, rest.drop 4) else none
      else if c = 'n' then
        if rest.take 3 = ['u', 'l', 'l'] then some (Json.null, rest.drop 3) else none
      else
        match parseNumber cs with
        | some p => some (Json.num p.1, p.2)
        | none => none

/-- Fueled reader for the items of a non-empty array (strict: a comma must
be followed by a value, so trailing commas fail). -/
def parseItems (fuel : ℕ) (cs : List Char) : Option (List Json × List Char) :=
  match fuel with
  | 0 => none
  | fuel + 1 =>
    match parseVal fuel cs with
    | none => none
    | some p =>
      let r2 := p.2.dropWhile isJsonWs
      match r2 with
      | c :: r3 =>
        if c = ']' then some ([p.1], r3)
        else if c = ',' then
          match parseItems fuel r3 with
          | some q => some (p.1 :: q.1, q.2)
          | none => none
        else none
      | [] => none

/-- Fueled reader for the members of a non-empty object (strict: a comma
must be followed by a quoted key, so trailing commas fail). -/
def parseMembers (fuel : ℕ) (cs : List Char) : Option (List (String × Json) × List Char) :=
  match fuel with
  | 0 => none
  | fuel + 1 =>
    let cs := cs.dropWhile isJsonWs
    match cs with
    | c :: r =>
      if c = '"' then
        match parseStringAux r with
        | some kp =>
          let r2 := kp.2.dropWhile isJsonWs
          match r2 with
          | d :: r3 =>
            if d = ':' then
              match parseVal fuel r3 with
              | some vp =>
                let r5 := vp.2.dropWhile isJsonWs
                match r5 with
                | e :: r6 =>
                  if e = rbrace then some ([(String.mk kp.1, vp.1)], r6)
                  else if e = ',' then
                    match parseMembers fuel r6 with
                    | some mp => some ((String.mk kp.1, vp.1) :: mp.1, mp.2)
                    | none => none
                  else none
                | [] => none
              | none => none
            else none
          | [] => none
        | none => none
      else none
    | [] => none

end

/-- Model of JSON.parse on a character list: one value, then only trailing
whitespace. -/
def parseJsonChars (cs : List Char) : Option Json :=
  match parseVal (2 * cs.length + 8) cs with
  | some p => if p.2.dropWhile isJsonWs = [] then some p.1 else none
  | none => none

/-- Remove every occurrence of a pattern (the JS global replace by the empty
string), scanning left to right without rescanning replacements. -/
def removeAllAux (pat : List Char) : ℕ → List Char → List Char
  | 0, cs => cs
  | _ + 1, [] => []
  | fuel + 1, c :: cs =>
    if (c :: cs).take pat.length = pat then removeAllAux pat fuel ((c :: cs).drop pat.length)
    else c :: removeAllAux pat fuel cs

/-- String-level wrapper for the pattern removal. -/
def removeAll (s pat : String) : String :=
  String.mk (removeAllAux pat.data s.data.length s.data)

/-- One pass of the trailing-comma normalization for a given closing bracket:
a comma followed by whitespace and that bracket becomes the bracket alone. -/
def fixCommaCloseAux (close : Char) : ℕ → List Char → List Char
  | 0, cs => cs
  | _ + 1, [] => []
  | fuel + 1, c :: cs =>
    if c = ',' then
      match cs.dropWhile isWsChar with
      | d :: r =>
        if d = close then close :: fixCommaCloseAux close fuel r
        else c :: fixCommaCloseAux close fuel cs
      | [] => c :: fixCommaCloseAux close fuel cs
    else c :: fixCommaCloseAux close fuel cs

/-- The recovery pass of sanitizeAndParseJSON: drop trailing commas before
closing curly brackets, then before closing square brackets. -/
def fixTrailingCommas (s : String) : String :=
  let a := fixCommaCloseAux rbrace s.data.length s.data
  String.mk (fixCommaCloseAux ']' a.length a)

/-- Index of the first occurrence of a character. -/
def firstIndexOfChar (cs : List Char) (c : Char) : Option ℕ :=
  cs.findIdx? (fun d => d = c)

/-- Index of the last occurrence of a character. -/
def lastIndexOfChar (cs : List Char) (c : Char) : Option ℕ :=
  match cs.reverse.findIdx? (fun d => d = c) with
  | some i => some (cs.length - 1 - i)
  | none => none

/-- JS String.prototype.substring: swaps its endpoints when given in the
wrong order, then slices. -/
def jsSubstring (cs : List Char) (a b : ℕ) : List Char :=
  (cs.drop (min a b)).take (max a b - min a b)

/-- The analyzer's self-healing parse: strip markdown fences, slice from the
first opening to the last closing curly bracket (throwing — here none — when
either is absent), strict parse, and on failure retry once after the
trailing-comma normalization. -/
def sanitizeAndParseJSON (jsonText : String) : Option Json :=
  let cleaned := removeAll (removeAll jsonText "```json") "```"
  let cs := cleaned.data
  match firstIndexOfChar cs lbrace, lastIndexOfChar cs rbrace with
  | some fb, some lb =>
    let sliced := jsSubstring cs fb (lb + 1)
    match parseJsonChars sliced with
    | some v => some v
    | none => parseJsonChars (fixTrailingCommas (String.mk sliced)).data
  | _, _ => none

/-! ### The feedback report construction -/

/-- The gesture metrics snapshot attached to a report when enabled. -/
structure GestureMetrics where
  smileCount : ℕ
  eyeTouchCount : ℕ
  handGestureCount : ℕ
deriving DecidableEq

/-- JS truthiness on JSON values (NaN does not arise here). -/
def jsTruthy : Json → Bool
  | Json.null => false
  | Json.bool b => b
  | Json.num q => q != 0
  | Json.str s => s != ""
  | Json.arr _ => true
  | Json.obj _ => true

/-- Property access on a parsed value: defined members of an object (with
the last duplicate winning, as in the platform parser), undefined otherwise. -/
def getField (j : Json) (k : String) : Option Json :=
  match j with
  | Json.obj ms =>
    match ms.reverse.find? (fun m => m.1 == k) with
    | some m => some m.2
    | none => none
  | _ => none

/-- The JS expression «v || d» for a possibly-undefined field v. -/
def jsOr (v : Option Json) (d : Json) : Json :=
  match v with
  | some j => if jsTruthy j then j else d
  | none => d

/-- The five sub-metric slots of a report.  Each keeps the raw field value
chosen by «parsed.metrics?.k || 0», which the code does not type-check. -/
structure MetricsJson where
  technical : Json
  communication : Json
  confidence : Json
  clarity : Json
  problemSolving : Json

/-- The report record (TS interface FeedbackData).  The score is a number
because the code guards it with a typeof test; summary and the sub-metrics
keep the raw payload values. -/
structure FeedbackData where
  score : ℚ
  summary : Json
  strengths : List Json
  improvements : List Json
  metrics : MetricsJson
  gestureMetrics : Option GestureMetrics

/-- One sub-metric: «parsed.metrics?.k || 0». -/
def metricField (parsed : Json) (k : String) : Json :=
  match getField parsed "metrics" with
  | some m => jsOr (getField m k) (Json.num 0)
  | none => Json.num 0

/-- Per-field defaulting of a successfully parsed payload into a report. -/
def buildFeedback (parsed : Json) (g : Option GestureMetrics) : FeedbackData :=
  { score :=
      match getField parsed "score" with
      | some (Json.num q) => q
      | _ => 0,
    summary := jsOr (getField parsed "summary") (Json.str "Analysis complete."),
    strengths :=
      match getField parsed "strengths" with
      | some (Json.arr xs) => xs
      | _ => [Json.str "No specific strengths detected"],
    improvements :=
      match getField parsed "improvements" with
      | some (Json.arr xs) => xs
      | _ => [Json.str "No specific improvements detected"],
    metrics :=
      ⟨metricField parsed "technical", metricField parsed "communication",
        metricField parsed "confidence", metricField parsed "clarity",
        metricField parsed "problemSolving"⟩,
    gestureMetrics := g }

/-- The all-zero sub-metric record. -/
def emptyMetrics : MetricsJson :=
  ⟨Json.num 0, Json.num 0, Json.num 0, Json.num 0, Json.num 0⟩

/-- The fixed report of the short-transcript shortcut. -/
def emptyData (g : Option GestureMetrics) : FeedbackData :=
  { score := 0,
    summary := Json.str "No meaningful conversation was recorded. Please check microphone settings.",
    strengths := [Json.str "N/A"],
    improvements := [Json.str "Ensure microphone is enabled", Json.str "Check network connection"],
    metrics := emptyMetrics,
    gestureMetrics := g }

/-- The fixed report returned when the payload cannot be parsed. -/
def invalidFormatData (g : Option GestureMetrics) : FeedbackData :=
  { score := 0,
    summary := Json.str "The AI analyzed the interview but returned an invalid format.",
    strengths := [Json.str "Analysis Error"],
    improvements := [Json.str "Please try again"],
    metrics := emptyMetrics,
    gestureMetrics := g }

/-- The fixed report returned when the remote call itself fails. -/
def networkErrorData (g : Option GestureMetrics) : FeedbackData :=
  { score := 0,
    summary := Json.str "Network or API error during analysis.",
    strengths := [Json.str "N/A"],
    improvements := [Json.str "N/A"],
    metrics := emptyMetrics,
    gestureMetrics := g }

/-- Outcome of the end-of-interview analysis: whether the remote analysis
call was made, the fixed UI delay taken, and the report produced. -/
structure AnalysisOutcome where
  remoteCalled : Bool
  delayMs : ℕ
  report : FeedbackData

/-- The analysis portion of handleEndInterview.  The remote argument is the
outcome of the non-streaming model call: none models a thrown failure
(network, or the missing-credential throw before the call), some t the
response text, defaulted to an empty object when empty.  The guard
«!finalTranscript || finalTranscript.length < 10» is the length test alone,
since an empty string has length 0. -/
def handleAnalysis (finalTranscript : String) (g : Option GestureMetrics)
    (remote : Option String) : AnalysisOutcome :=
  if finalTranscript.length < 10 then
    { remoteCalled := false, delayMs := 2000, report := emptyData g }
  else
    match remote with
    | none => { remoteCalled := true, delayMs := 0, report := networkErrorData g }
    | some respText =>
      let jsonText := if respText = "" then "\x7b\x7d" else respText
      match sanitizeAndParseJSON jsonText with
      | some parsed => { remoteCalled := true, delayMs := 0, report := buildFeedback parsed g }
      | none => { remoteCalled := true, delayMs := 0, report := invalidFormatData g }

/-- Whether a JSON value is a number. -/
def isNumJson : Json → Bool
  | Json.num _ => true
  | _ => false

/-- Whether a JSON value is a string. -/
def isStrJson : Json → Bool
  | Json.str _ => true
  | _ => false

/-- A report is well-formed when its summary is text, its two lists are
non-empty, and all five sub-metrics are numbers. -/
def wellFormed (r : FeedbackData) : Bool :=
  isStrJson r.summary && !r.strengths.isEmpty && !r.improvements.isEmpty &&
    isNumJson r.metrics.technical && isNumJson r.metrics.communication &&
    isNumJson r.metrics.confidence && isNumJson r.metrics.clarity &&
    isNumJson r.metrics.problemSolving

/-! ### Concrete states and payloads used by the claims -/

/-- State after a turn of input consisting only of a space character. -/
def c3State : SessState := { initialState with current := "T", currentInput := " " }

/-- State with a pending candidate utterance and no model text. -/
def c4State : SessState := { initialState with current := "T", currentInput := "hi" }

/-- Controller state after: session T1 starts, an audio message tagged T1
passes its entry token check and suspends at the decode, then session T2
starts (resetting the cursor and sources). -/
def c1Mid : SessState :=
  onStartSession (onAudioArrive (onStartSession initialState "T1") "T1" (1 / 2) 7) "T2"

/-- The state after the suspended T1 decode continuation resumes at clock
time 5 while T2 is current. -/
def c1After : SessState := onAudioResume c1Mid 5

/-- Nine consecutive sample values, enough for three output samples at the
44100-to-16000 ratio. -/
def input9 : List ℚ := [0, 1, 2, 3, 4, 5, 6, 7, 8]

/-- The transcript of the spec's scenario. -/
def sampleTranscript : String := "Candidate: I built a cache.\nInterviewer: Good job.\n"

/-- The recovery-parse scenario payload: fenced JSON with a trailing comma
inside the improvements array. -/
def fencedPayload : String :=
  "```json\n\x7b\"score\":82,\"summary\":\"Solid.\",\"strengths\":[\"Clear\"],\"improvements\":[\"Depth\",],\"metrics\":\x7b\"technical\":7\x7d\x7d\n```"

/-- A fully valid JSON payload. -/
def validPayload : String :=
  "\x7b\"score\":75,\"summary\":\"Good.\",\"strengths\":[\"A\"],\"improvements\":[\"B\"],\"metrics\":\x7b\"technical\":5,\"communication\":6,\"confidence\":7,\"clarity\":8,\"problemSolving\":9\x7d\x7d"

/-- A payload of plain prose with no JSON object in it. -/
def prosePayload : String := "I think the candidate did well overall."

set_option maxRecDepth 10000

/-! ### Theorems -/

/-- Consecutive start times: the next start is the maximum of the previous
start plus its duration and the next arrival time. -/
theorem scheduleAll_consecutive (ns : ℚ) (l : List (ℚ × ℚ)) (i : ℕ) (h : i + 1 < l.length) :
    (scheduleAll ns l).getD (i + 1) 0 =
      max ((scheduleAll ns l).getD i 0 + (l.getD i (0, 0)).2) ((l.getD (i + 1) (0, 0)).1) := by
  induction l generalizing ns i with
  | nil => simp at h
  | cons hd tl ih =>
    obtain ⟨t, d⟩ := hd
    cases i with
    | zero =>
      cases tl with
      | nil => simp at h
      | cons hd2 tl2 =>
        obtain ⟨t2, d2⟩ := hd2
        simp [scheduleAll, scheduleBuffer]
    | succ j =>
      have h' : j + 1 < tl.length := by simpa using h
      simpa [scheduleAll, scheduleBuffer] using ih (max ns t + d) j h'

/-- C2: gapless-no-overlap scheduling.  For every initial cursor and sequence
of (arrival clock time, duration) pairs, consecutive start times satisfy
start(i+1) ≥ start(i) + dᵢ, with equality when the next arrival is no later
than the cursor (back-to-back delivery); and the spec scenario: two 0.5 s
buffers arriving at clock 10.0 start at 10.0 and 10.5, leaving the cursor
at 11.0. -/
theorem gapless_no_overlap_scheduling :
    (∀ (ns : ℚ) (l : List (ℚ × ℚ)) (i : ℕ), i + 1 < l.length →
      (scheduleAll ns l).getD i 0 + (l.getD i (0, 0)).2 ≤ (scheduleAll ns l).getD (i + 1) 0 ∧
      ((l.getD (i + 1) (0, 0)).1 ≤ (scheduleAll ns l).getD i 0 + (l.getD i (0, 0)).2 →
        (scheduleAll ns l).getD (i + 1) 0 =
          (scheduleAll ns l).getD i 0 + (l.getD i (0, 0)).2)) ∧
    scheduleAll 0 [(10, 0.5), (10, 0.5)] = [10, 10.5] ∧
    finalCursor 0 [(10, 0.5), (10, 0.5)] = 11 := by
  refine ⟨fun ns l i h => ?_, ?_, ?_⟩
  · rw [scheduleAll_consecutive ns l i h]
    exact ⟨le_max_left _ _, fun hb => max_eq_left hb⟩
  · norm_num [scheduleAll, scheduleBuffer, max_def]
  · norm_num [finalCursor, scheduleBuffer, max_def]

/-- Witness for C2 at the spec scenario: the second of two back-to-back 0.5 s
buffers arriving at clock 10 starts exactly at the first start plus 0.5. -/
theorem gapless_no_overlap_scheduling_witness :
    0 + 1 < ([((10 : ℚ), (0.5 : ℚ)), (10, 0.5)] : List (ℚ × ℚ)).length ∧
    (scheduleAll 0 [((10 : ℚ), (0.5 : ℚ)), (10, 0.5)]).getD 0 0 +
        (([((10 : ℚ), (0.5 : ℚ)), (10, 0.5)] : List (ℚ × ℚ)).getD 0 (0, 0)).2 ≤
      (scheduleAll 0 [((10 : ℚ), (0.5 : ℚ)), (10, 0.5)]).getD 1 0 :=
  ⟨by norm_num,
    (gapless_no_overlap_scheduling.1 0 [((10 : ℚ), (0.5 : ℚ)), (10, 0.5)] 0 (by norm_num)).1⟩

/-- C1: the code violates token exclusivity at a concrete interleaving.
Session T1 starts, an audio message tagged T1 passes the handler's entry
token check and suspends at the decode await; session T2 then becomes
current, resetting the timeline cursor to 0 and the active-source set to
empty; when the stale T1 continuation resumes (with no re-check after the
await, as in the source), it moves the shared cursor from 0 to 5.5 and
inserts its source into the active set even though the current token is T2. -/
theorem staleAudioResume_mutates_state :
    c1Mid.current = "T2" ∧
    c1Mid.pending = [⟨"T1", 1 / 2, 7⟩] ∧
    ("T1" : String) ≠ "T2" ∧
    c1Mid.nextStart = 0 ∧
    c1Mid.sources = [] ∧
    c1After.current = "T2" ∧
    c1After.nextStart = 11 / 2 ∧
    c1After.sources = [7] := by
  refine ⟨rfl, rfl, by decide, rfl, rfl, rfl, ?_, rfl⟩
  have h : c1After.nextStart = max 0 5 + 1 / 2 := rfl
  rw [h]
  norm_num [max_def]

/-- C3 counterexample: an accumulator holding a single space character is a
non-empty string, yet the turn-complete handler commits nothing (its guard
trims the accumulators first); the accumulators are still cleared. -/
theorem turnComplete_whitespace_not_committed :
    c3State.currentInput ≠ "" ∧
    (onTurnComplete c3State).transcripts = [] ∧
    (onTurnComplete c3State).tokenUsage = 0 ∧
    (onTurnComplete c3State).fullTranscript = "" ∧
    (onTurnComplete c3State).currentInput = "" ∧
    (onTurnComplete c3State).currentOutput = "" := by
  refine ⟨by decide, ?_, ?_, ?_, ?_, ?_⟩ <;> rfl

/-- C3 amended: on turn-complete, when either accumulator contains a
non-whitespace character the handler appends the (candidate, model) pair to
the transcript list, adds ceil((len(candidate)+len(model))/3.5) to the
token-usage counter, appends the formatted line to the transcript
accumulator, and clears both accumulators; when both accumulators trim to
empty, nothing is committed and both accumulators are cleared (hence empty). -/
theorem turnComplete_commit_amended (s : SessState) :
    (jsTrim s.currentInput ≠ "" ∨ jsTrim s.currentOutput ≠ "" →
      onTurnComplete s = { s with
        transcripts := s.transcripts ++
          [⟨Role.user, s.currentInput⟩, ⟨Role.model, s.currentOutput⟩],
        tokenUsage := s.tokenUsage + estTokens (s.currentInput.length + s.currentOutput.length),
        fullTranscript := s.fullTranscript ++ "Candidate: " ++ s.currentInput ++
          "\nInterviewer: " ++ s.currentOutput ++ "\n",
        currentInput := "", currentOutput := "" }) ∧
    (jsTrim s.currentInput = "" → jsTrim s.currentOutput = "" →
      onTurnComplete s = { s with currentInput := "", currentOutput := "" }) := by
  constructor
  · intro h
    simp only [onTurnComplete]
    rw [if_pos h]
  · intro h1 h2
    simp only [onTurnComplete]
    rw [if_neg (by simp [h1, h2])]

/-- Witness for the amended C3 at a concrete state with candidate text. -/
theorem turnComplete_commit_amended_witness :
    (jsTrim c4State.currentInput ≠ "" ∨ jsTrim c4State.currentOutput ≠ "") ∧
    onTurnComplete c4State = { c4State with
      transcripts := c4State.transcripts ++
        [⟨Role.user, c4State.currentInput⟩, ⟨Role.model, c4State.currentOutput⟩],
      tokenUsage := c4State.tokenUsage +
        estTokens (c4State.currentInput.length + c4State.currentOutput.length),
      fullTranscript := c4State.fullTranscript ++ "Candidate: " ++ c4State.currentInput ++
        "\nInterviewer: " ++ c4State.currentOutput ++ "\n",
      currentInput := "", currentOutput := "" } :=
  ⟨by decide, (turnComplete_commit_amended c4State).1 (by decide)⟩

/-- C4 counterexample: on interruption the code commits the pending turn
without adding the token estimate, while a commit performed «exactly as on
turn-complete» on the marker-suffixed model text adds 5 tokens for this
state; the two resulting states differ. -/
theorem interrupted_skips_token_usage :
    (onInterrupted c4State 1).tokenUsage = 0 ∧
    (specInterrupted c4State 1).tokenUsage = 5 ∧
    onInterrupted c4State 1 ≠ specInterrupted c4State 1 := by
  have hcode : (onInterrupted c4State 1).tokenUsage = 0 := by
    simp only [onInterrupted]
    split <;> rfl
  have hest : estTokens 16 = 5 := by
    unfold estTokens
    rw [Int.ceil_eq_iff]
    constructor <;> norm_num
  have hspec : (specInterrupted c4State 1).tokenUsage = 5 := by
    have e1 : (specInterrupted c4State 1).tokenUsage = 0 + estTokens 16 := by
      simp only [specInterrupted, onTurnComplete]
      split
      · rfl
      · next hne => exact absurd (Or.inl (by decide)) hne
    rw [e1, hest]
    decide
  refine ⟨hcode, hspec, fun heq => ?_⟩
  have hts := congrArg SessState.tokenUsage heq
  rw [hcode, hspec] at hts
  exact absurd hts (by decide)

/-- C4 amended: on an interrupted event every active source is removed, the
cursor is reset to the current clock time, the token-usage counter is left
unchanged, and when either accumulator contains a non-whitespace character
the pending turn is committed with the model text suffixed by the
interruption marker and the accumulators are cleared; when both trim to
empty nothing else changes (in particular the accumulators are not cleared
on that path). -/
theorem interrupted_commit_amended (s : SessState) (clock : ℚ) :
    (onInterrupted s clock).sources = [] ∧
    (onInterrupted s clock).nextStart = clock ∧
    (onInterrupted s clock).tokenUsage = s.tokenUsage ∧
    (jsTrim s.currentInput ≠ "" ∨ jsTrim s.currentOutput ≠ "" →
      onInterrupted s clock = { s with
        sources := ([] : List ℕ), nextStart := clock,
        transcripts := s.transcripts ++
          [⟨Role.user, s.currentInput⟩, ⟨Role.model, s.currentOutput ++ interruptedMarker⟩],
        fullTranscript := s.fullTranscript ++ "Candidate: " ++ s.currentInput ++
          "\nInterviewer: " ++ s.currentOutput ++ interruptedMarker ++ "\n",
        currentInput := "", currentOutput := "" }) ∧
    (jsTrim s.currentInput = "" → jsTrim s.currentOutput = "" →
      onInterrupted s clock = { s with sources := ([] : List ℕ), nextStart := clock }) := by
  refine ⟨?_, ?_, ?_, fun h => ?_, fun h1 h2 => ?_⟩
  · simp only [onInterrupted]
    split <;> rfl
  · simp only [onInterrupted]
    split <;> rfl
  · simp only [onInterrupted]
    split <;> rfl
  · simp only [onInterrupted]
    rw [if_pos h]
  · simp only [onInterrupted]
    rw [if_neg (by simp [h1, h2])]

/-- Witness for the amended C4 at a concrete state and clock time 2. -/
theorem interrupted_commit_amended_witness :
    (jsTrim c4State.currentInput ≠ "" ∨ jsTrim c4State.currentOutput ≠ "") ∧
    onInterrupted c4State 2 = { c4State with
      sources := ([] : List ℕ), nextStart := (2 : ℚ),
      transcripts := c4State.transcripts ++
        [⟨Role.user, c4State.currentInput⟩,
          ⟨Role.model, c4State.currentOutput ++ interruptedMarker⟩],
      fullTranscript := c4State.fullTranscript ++ "Candidate: " ++ c4State.currentInput ++
        "\nInterviewer: " ++ c4State.currentOutput ++ interruptedMarker ++ "\n",
      currentInput := "", currentOutput := "" } :=
  ⟨by decide, (interrupted_commit_amended c4State 2).2.2.2.1 (by decide)⟩

/-- The floor of a product of a natural number with a quotient of natural
numbers, as a natural-number division. -/
theorem floor_natMul_natDiv_toNat (a b c : ℕ) :
    (Int.floor ((a : ℚ) * ((b : ℚ) / (c : ℚ)))).toNat = a * b / c := by
  rw [show ((a : ℚ) * ((b : ℚ) / (c : ℚ))) = ((a * b : ℕ) : ℚ) / (c : ℚ) by push_cast; ring]
  rw [Int.floor_toNat, Nat.floor_div_nat, Nat.floor_natCast]

/-- The floor of a quotient by a quotient of natural numbers, as a
natural-number division. -/
theorem floor_natDiv_natDiv_toNat (a b c : ℕ) :
    (Int.floor ((a : ℚ) / ((b : ℚ) / (c : ℚ)))).toNat = a * c / b := by
  rw [div_div_eq_mul_div]
  rw [show ((a : ℚ) * (c : ℚ) / (b : ℚ)) = ((a * c : ℕ) : ℚ) / (b : ℚ) by push_cast; ring]
  rw [Int.floor_toNat, Nat.floor_div_nat, Nat.floor_natCast]

/-- The downsampling step computed with natural-number index arithmetic:
above the wire rate, the output keeps length·16000/rate samples and sample i
is input[i·rate/16000] (integer division here is exactly the floor of the
fractional products the source computes). -/
theorem downsample_eq_natDiv (rate : ℕ) (input : List ℚ) (h : wireRate < rate) :
    downsample rate input =
      (List.range (input.length * wireRate / rate)).map
        (fun i => input.getD (i * rate / wireRate) 0) := by
  simp only [downsample, if_pos h]
  rw [floor_natDiv_natDiv_toNat input.length rate wireRate]
  apply List.map_congr_left
  intro i _
  rw [floor_natMul_natDiv_toNat i rate wireRate]

/-- C5 counterexample: at a 44100 Hz device rate the code decimates at the
exact fractional ratio 44100/16000 = 2.75625, so nine input samples yield
the three samples at indices 0, 2 and 5, while decimation at the
integer-truncated ratio 2 would keep the samples at indices 0, 2, 4, 6, 8;
already the third output sample differs (5 versus 4). -/
theorem downsample_fractional_ratio_counterexample :
    downsample 44100 input9 = [0, 2, 5] ∧
    specDownsample 44100 input9 = [0, 2, 4, 6, 8] ∧
    (downsample 44100 input9).getD 2 0 ≠ (specDownsample 44100 input9).getD 2 0 := by
  have h1 : downsample 44100 input9 = [0, 2, 5] := by
    rw [downsample_eq_natDiv 44100 input9 (by decide)]
    decide
  have h2 : specDownsample 44100 input9 = [0, 2, 4, 6, 8] := by decide
  refine ⟨h1, h2, ?_⟩
  rw [h1, h2]
  norm_num

/-- C5 amended: for every capture block whose native rate exceeds the wire
rate, the outbound frame is produced by nearest-neighbor decimation at the
exact (fractional) ratio of native rate to wire rate: the output has
floor(len·16000/rate) samples and sample i is input[floor(i·rate/16000)]
(written with natural-number division, which is that floor) — no
interpolation and no anti-alias filtering. -/
theorem downsample_exact_ratio (rate : ℕ) (input : List ℚ) (h : wireRate < rate) :
    (downsample rate input).length = input.length * wireRate / rate ∧
    ∀ i, i < (downsample rate input).length →
      (downsample rate input).getD i 0 = input.getD (i * rate / wireRate) 0 := by
  rw [downsample_eq_natDiv rate input h]
  constructor
  · simp
  · intro i hi
    simp only [List.length_map, List.length_range] at hi
    rw [List.getD_eq_getElem _ _ (by simpa using hi)]
    simp [List.getElem_map, List.getElem_range]

/-- Witness for the amended C5: a 48000 Hz block of seven samples yields
floor(7·16000/48000) = 2 samples. -/
theorem downsample_exact_ratio_witness :
    wireRate < 48000 ∧
    (downsample 48000 ([1, 2, 3, 4, 5, 6, 7] : List ℚ)).length =
      ([1, 2, 3, 4, 5, 6, 7] : List ℚ).length * wireRate / 48000 :=
  ⟨by decide, (downsample_exact_ratio 48000 ([1, 2, 3, 4, 5, 6, 7] : List ℚ) (by decide)).1⟩

/-- C6: when the native rate is at or below the wire rate the resampling
step passes the samples through unchanged. -/
theorem passthrough_at_or_below_wire_rate (rate : ℕ) (input : List ℚ) (h : rate ≤ wireRate) :
    downsample rate input = input := by
  simp only [downsample]
  rw [if_neg (by omega)]

/-- Witness for C6: a block already at 16 kHz is returned unchanged. -/
theorem passthrough_at_or_below_wire_rate_witness :
    16000 ≤ wireRate ∧ downsample 16000 ([1, 2] : List ℚ) = [1, 2] :=
  ⟨by decide, passthrough_at_or_below_wire_rate 16000 ([1, 2] : List ℚ) (by decide)⟩

/-- C7: the analyzer fails soft.  Every run produces one of the four report
shapes (short-transcript, network-error, invalid-format, parsed-and-defaulted)
and never anything else; a failed remote call yields the fixed network-error
report; an unparseable payload yields the fixed invalid-format report; and on
the four spec scenarios — empty transcript, valid JSON, fenced JSON with a
trailing comma, plain prose — the resulting report is well-formed. -/
theorem analyzer_fails_soft :
    (∀ (t : String) (g : Option GestureMetrics) (r : Option String),
      handleAnalysis t g r = ⟨false, 2000, emptyData g⟩ ∨
      handleAnalysis t g r = ⟨true, 0, networkErrorData g⟩ ∨
      handleAnalysis t g r = ⟨true, 0, invalidFormatData g⟩ ∨
      ∃ parsed, handleAnalysis t g r = ⟨true, 0, buildFeedback parsed g⟩) ∧
    (∀ (t : String) (g : Option GestureMetrics), 10 ≤ t.length →
      handleAnalysis t g none = ⟨true, 0, networkErrorData g⟩) ∧
    (∀ (t p : String) (g : Option GestureMetrics), 10 ≤ t.length →
      sanitizeAndParseJSON (if p = "" then "\x7b\x7d" else p) = none →
      handleAnalysis t g (some p) = ⟨true, 0, invalidFormatData g⟩) ∧
    (∀ (g : Option GestureMetrics) (r : Option String),
      handleAnalysis "" g r = ⟨false, 2000, emptyData g⟩ ∧ wellFormed (emptyData g) = true) ∧
    wellFormed (handleAnalysis sampleTranscript none (some validPayload)).report = true ∧
    wellFormed (handleAnalysis sampleTranscript none (some fencedPayload)).report = true ∧
    wellFormed (handleAnalysis sampleTranscript none (some prosePayload)).report = true := by
  refine ⟨?_, ?_, ?_, ?_, rfl, rfl, rfl⟩
  · intro t g r
    by_cases h : t.length < 10
    · left
      simp [handleAnalysis, h]
    · rcases r with _ | p
      · right; left
        simp [handleAnalysis, h]
      · rcases hp : sanitizeAndParseJSON (if p = "" then "\x7b\x7d" else p) with _ | parsed
        · right; right; left
          simp [handleAnalysis, h, hp]
        · right; right; right
          exact ⟨parsed, by simp [handleAnalysis, h, hp]⟩
  · intro t g h
    simp [handleAnalysis, Nat.not_lt.mpr h]
  · intro t p g h hp
    simp [handleAnalysis, Nat.not_lt.mpr h, hp]
  · intro g r
    exact ⟨by simp [handleAnalysis], rfl⟩

/-- Witness for C7: the prose payload has no JSON object, so the concrete
run returns the fixed invalid-format report. -/
theorem analyzer_fails_soft_witness :
    10 ≤ sampleTranscript.length ∧
    sanitizeAndParseJSON (if prosePayload = "" then "\x7b\x7d" else prosePayload) = none ∧
    handleAnalysis sampleTranscript none (some prosePayload) =
      ⟨true, 0, invalidFormatData none⟩ :=
  ⟨by decide, by rfl,
    analyzer_fails_soft.2.2.1 sampleTranscript prosePayload none (by decide) (by rfl)⟩

/-- C8: the recovery-parse scenario.  The fenced payload with a trailing
comma is stripped of its fences, sliced between the outer braces, recovered
by the trailing-comma normalization, and defaulted per field into the report
score 82, summary «Solid.», strengths [«Clear»], improvements [«Depth»],
technical 7 and all other sub-metrics 0. -/
theorem recovery_parse_scenario :
    sanitizeAndParseJSON fencedPayload =
      some (Json.obj
        [("score", Json.num 82), ("summary", Json.str "Solid."),
          ("strengths", Json.arr [Json.str "Clear"]),
          ("improvements", Json.arr [Json.str "Depth"]),
          ("metrics", Json.obj [("technical", Json.num 7)])]) ∧
    handleAnalysis sampleTranscript none (some fencedPayload) =
      { remoteCalled := true, delayMs := 0,
        report :=
          { score := 82,
            summary := Json.str "Solid.",
            strengths := [Json.str "Clear"],
            improvements := [Json.str "Depth"],
            metrics := ⟨Json.num 7, Json.num 0, Json.num 0, Json.num 0, Json.num 0⟩,
            gestureMetrics := none } } :=
  ⟨rfl, rfl⟩

/-- C9: whenever the final transcript is shorter than the 10-character
minimum, the remote call is skipped, the fixed 2000 ms delay is taken, and
the fixed «no conversation recorded» report (score 0, placeholder lists,
all-zero sub-metrics) is returned. -/
theorem short_transcript_shortcut (t : String) (g : Option GestureMetrics)
    (r : Option String) (h : t.length < 10) :
    handleAnalysis t g r = ⟨false, 2000, emptyData g⟩ ∧
    (emptyData g).score = 0 ∧
    (emptyData g).metrics = emptyMetrics ∧
    (emptyData g).strengths = [Json.str "N/A"] ∧
    (emptyData g).improvements =
      [Json.str "Ensure microphone is enabled", Json.str "Check network connection"] := by
  exact ⟨by simp [handleAnalysis, h], rfl, rfl, rfl, rfl⟩

/-- Witness for C9 at a one-character transcript (remote result present but
unused). -/
theorem short_transcript_shortcut_witness :
    ("x" : String).length < 10 ∧
    handleAnalysis "x" none (some "\x7b\"score\":50\x7d") = ⟨false, 2000, emptyData none⟩ :=
  ⟨by decide, (short_transcript_shortcut "x" none (some "\x7b\"score\":50\x7d") (by decide)).1⟩

/-- C10: the final transcript handed to the analyzer extends the committed
transcript: the committed part is a prefix; a non-empty in-flight candidate
accumulator appears after it under the «Candidate (Final):» label and a
non-empty in-flight model accumulator under the «Interviewer (Final):»
label; with any in-flight text the result strictly extends the committed
part, and with none it is exactly the committed part. -/
theorem final_transcript_includes_inflight (full inp out : String) :
    (∃ rest, mkFinalTranscript full inp out = full ++ rest) ∧
    (inp ≠ "" → ∃ pre post,
      mkFinalTranscript full inp out = pre ++ ("\nCandidate (Final): " ++ inp) ++ post) ∧
    (out ≠ "" → ∃ pre,
      mkFinalTranscript full inp out = pre ++ ("\nInterviewer (Final): " ++ out)) ∧
    ((inp ≠ "" ∨ out ≠ "") → mkFinalTranscript full inp out ≠ full) ∧
    (inp = "" → out = "" → mkFinalTranscript full inp out = full) := by
  refine ⟨?_, fun h => ?_, fun h => ?_, fun h => ?_, fun h1 h2 => ?_⟩
  · exact ⟨(if inp ≠ "" then "\nCandidate (Final): " ++ inp else "") ++
      (if out ≠ "" then "\nInterviewer (Final): " ++ out else ""),
      String.append_assoc _ _ _⟩
  · refine ⟨full, (if out ≠ "" then "\nInterviewer (Final): " ++ out else ""), ?_⟩
    simp only [mkFinalTranscript, if_pos h]
  · refine ⟨full ++ (if inp ≠ "" then "\nCandidate (Final): " ++ inp else ""), ?_⟩
    simp only [mkFinalTranscript, if_pos h]
  · intro heq
    have hl := congrArg String.length heq
    simp only [mkFinalTranscript, String.length_append] at hl
    have h20 : ("\nCandidate (Final): " : String).length = 20 := by decide
    have h22 : ("\nInterviewer (Final): " : String).length = 22 := by decide
    rcases h with h | h
    · rw [if_pos h, String.length_append, h20] at hl
      omega
    · rw [if_pos h, String.length_append, h22] at hl
      omega
  · simp [mkFinalTranscript, h1, h2, String.append_empty]

/-- Witness for C10 with committed text, in-flight candidate text and no
in-flight model text. -/
theorem final_transcript_includes_inflight_witness :
    ("a" : String) ≠ "" ∧
    ∃ pre post, mkFinalTranscript "F" "a" "" = pre ++ ("\nCandidate (Final): " ++ "a") ++ post :=
  ⟨by decide, (final_transcript_includes_inflight "F" "a" "").2.1 (by decide)⟩

end BotInterview
